import Mathlib

/-!
Shallow embedding of the laser-arcade pointer pipeline: blob selection and EMA
smoothing (`laser_arcade/laser_tracker.py`), the dwell-click detector and
pointer router (`laser_arcade/pointer.py`), homography calibration
(`laser_arcade/calibration.py`) and the persistence layer
(`laser_arcade/config.py`).  Machine floats are modelled over `ℚ`; the OpenCV
primitives the code calls (`cv2.contourArea`, `cv2.moments`,
`cv2.perspectiveTransform`) are embedded from their documented integration
formulas, while `cv2.findHomography` and `json` serialization are oracles
passed in as parameters.
-/

namespace LaserArcade

/-! ### Contours and image moments -/

/-- A contour as returned by `cv2.findContours`: a closed polygon given by its
vertex list in integer pixel coordinates. -/
abbrev Contour := List (Int × Int)

/-- Twice the signed polygon area: the Green/shoelace sum
`Σ (x_i * y_{i+1} - x_{i+1} * y_i)` over the wrapped edge list.  Both
`cv2.contourArea` and `cv2.moments` integrate this quantity. -/
def shoelace2 (c : Contour) : Int :=
  ((c.zip (c.rotate 1)).map (fun e => e.1.1 * e.2.2 - e.2.1 * e.1.2)).sum

/-- `cv2.contourArea`: the absolute area of the polygon, `|shoelace2| / 2`. -/
def contourArea (c : Contour) : ℚ :=
  ((shoelace2 c).natAbs : ℚ) / 2

/-- Six times the (unnormalized) first moment in x accumulated by OpenCV's
`contourMoments`: `Σ dxy * (x_i + x_{i+1})` with `dxy = x_i*y_{i+1} - x_{i+1}*y_i`. -/
def m10sum6 (c : Contour) : Int :=
  ((c.zip (c.rotate 1)).map
    (fun e => (e.1.1 * e.2.2 - e.2.1 * e.1.2) * (e.1.1 + e.2.1))).sum

/-- Six times the (unnormalized) first moment in y accumulated by OpenCV's
`contourMoments`: `Σ dxy * (y_i + y_{i+1})`. -/
def m01sum6 (c : Contour) : Int :=
  ((c.zip (c.rotate 1)).map
    (fun e => (e.1.1 * e.2.2 - e.2.1 * e.1.2) * (e.1.2 + e.2.2))).sum

/-- Python `int(...)` applied to a real value: truncation toward zero. -/
def pyTrunc (q : ℚ) : Int :=
  Int.tdiv q.num (q.den : Int)

/-- The centroid step of `LaserTracker.read`: `M = cv2.moments(c)`, then the
`M["m00"] != 0` guard, then `cx = int(M["m10"]/M["m00"])`,
`cy = int(M["m01"]/M["m00"])`.  OpenCV's `contourMoments` flips the sign of all
moments when the signed area is negative, so `m00 = contourArea` and the guard
is `shoelace2 c ≠ 0`. -/
def centroid (c : Contour) : Option (Int × Int) :=
  let a2 := shoelace2 c
  if a2 = 0 then none
  else
    let sgn : ℚ := if 0 < a2 then 1 else -1
    let m00 : ℚ := sgn * (a2 : ℚ) / 2
    let m10 : ℚ := sgn * (m10sum6 c : ℚ) / 6
    let m01 : ℚ := sgn * (m01sum6 c : ℚ) / 6
    some (pyTrunc (m10 / m00), pyTrunc (m01 / m00))

/-! ### LaserTracker.read after contour extraction -/

/-- The area-filter fields of `LaserProfile` that `LaserTracker.read` consults
once contours exist.  The HSV bounds and the morphological kernel only shape
the binary mask, whose external contours are the `contours` input here. -/
structure LaserCfg where
  min_area : ℚ
  max_area : ℚ

/-- One iteration of the contour loop in `LaserTracker.read` (lines 75-85):
skip contours outside `[min_area, max_area]`, otherwise if the area beats the
best so far update `best_area` first and `best` only when `m00 != 0`. -/
def scanStep (cfg : LaserCfg) (st : Option (Int × Int) × ℚ) (c : Contour) :
    Option (Int × Int) × ℚ :=
  if contourArea c < cfg.min_area ∨ cfg.max_area < contourArea c then st
  else if st.2 < contourArea c then
    match centroid c with
    | some pt => (some pt, contourArea c)
    | none => (st.1, contourArea c)
  else st

/-- The whole contour loop: left fold over the contours in scan order,
starting from `best = None`, `best_area = 0`. -/
def trackerScan (cfg : LaserCfg) (contours : List Contour) :
    Option (Int × Int) × ℚ :=
  contours.foldl (scanStep cfg) (none, 0)

/-- A contour passes the area filter: `min_area ≤ area ≤ max_area`. -/
def inAreaRange (cfg : LaserCfg) (c : Contour) : Prop :=
  cfg.min_area ≤ contourArea c ∧ contourArea c ≤ cfg.max_area

instance (cfg : LaserCfg) (c : Contour) : Decidable (inAreaRange cfg c) :=
  inferInstanceAs (Decidable (_ ∧ _))

/-- The area of the selected blob: the maximum area among the contours that
pass the area filter, `0` when none does. -/
def selectedArea (cfg : LaserCfg) (contours : List Contour) : ℚ :=
  ((contours.filter (fun c => decide (inAreaRange cfg c))).map contourArea).foldl max 0

/-- The fields of `LaserDetection` constrained by the pipeline claims
(`frame_ts` and `mask_preview` carry no pipeline content and are omitted). -/
structure LaserDetection where
  point : Option (Int × Int)
  area : ℚ
  confidence : ℚ

/-- The exponential-moving-average blend
`alpha * point_arr + (1 - alpha) * self.last_point`, componentwise. -/
def emaBlend (alpha : ℚ) (p0 p1 : ℚ × ℚ) : ℚ × ℚ :=
  (alpha * p1.1 + (1 - alpha) * p0.1, alpha * p1.2 + (1 - alpha) * p0.2)

/-- `np.array(best, dtype=np.float32)`: the raw integer centroid as a pair of
reals. -/
def toRatPair (p : Int × Int) : ℚ × ℚ :=
  ((p.1 : ℚ), (p.2 : ℚ))

/-- The smoothing block of `LaserTracker.read` (lines 87-95): seed the state
with the raw centroid when there was none, blend otherwise, and leave the
state untouched on a miss.  Returns `(smoothed, new last_point)`. -/
def smoothStep (alpha : ℚ) (last_point : Option (ℚ × ℚ))
    (best : Option (Int × Int)) : Option (ℚ × ℚ) × Option (ℚ × ℚ) :=
  match best with
  | none => (none, last_point)
  | some b =>
    match last_point with
    | none => (some (toRatPair b), some (toRatPair b))
    | some p0 =>
      (some (emaBlend alpha p0 (toRatPair b)), some (emaBlend alpha p0 (toRatPair b)))

/-- `LaserTracker.read` from contour extraction on (lines 72-111): the contour
scan, the EMA smoothing against the `self.last_point` state, the confidence
formula `min(1.0, best_area / max(min_area, 1))`, and the reported point
`tuple(int(x) for x in smoothed)`.  Returns the detection together with the
new `last_point` state; on a miss the state is left untouched (line 95 sits
inside `if best is not None`). -/
def trackerRead (cfg : LaserCfg) (alpha : ℚ) (last_point : Option (ℚ × ℚ))
    (contours : List Contour) : LaserDetection × Option (ℚ × ℚ) :=
  ({ point := (smoothStep alpha last_point (trackerScan cfg contours).1).1.map
        (fun s => (pyTrunc s.1, pyTrunc s.2)),
     area := (trackerScan cfg contours).2,
     confidence := min 1 ((trackerScan cfg contours).2 / max cfg.min_area 1) },
   (smoothStep alpha last_point (trackerScan cfg contours).1).2)

/-! ### DwellClickDetector and PointerRouter -/

/-- The dwell tuning read at `DwellClickDetector.__init__`: `dwell_ms`,
`radius_px`, `debounce_ms` (default 350). -/
structure DwellCfg where
  dwell_ms : ℚ
  radius_px : Int
  debounce_ms : ℚ

/-- `DwellClickDetector` state.  The source keeps `anchor` and `anchor_ts` as
two fields that are always both `None` or both set; they are bundled into one
option here.  `last_click_ts` is initialized to `0`. -/
structure DwellState where
  anchor : Option ((Int × Int) × ℚ)
  last_click_ts : ℚ

/-- Detector state right after construction. -/
def initDwellState : DwellState :=
  { anchor := none, last_click_ts := 0 }

/-- The movement test `(dx*dx + dy*dy) ** 0.5 > self.radius_px`, expressed
without square roots: for `r ≥ 0`, `sqrt d2 > r ↔ d2 > r*r`, and for `r < 0`
the float comparison always holds since `sqrt d2 ≥ 0`. -/
def distExceeds (p a : Int × Int) (r : Int) : Prop :=
  r < 0 ∨ r * r < (p.1 - a.1) * (p.1 - a.1) + (p.2 - a.2) * (p.2 - a.2)

instance (p a : Int × Int) (r : Int) : Decidable (distExceeds p a r) :=
  inferInstanceAs (Decidable (_ ∨ _))

/-- `DwellClickDetector.update` (pointer.py lines 28-52).  `now` is the clock
reading in milliseconds.  Returns whether a click fired (`"click"` vs `None`
in the source) together with the new state. -/
def dwellUpdate (cfg : DwellCfg) (s : DwellState) (now : ℚ)
    (point : Option (Int × Int)) : Bool × DwellState :=
  match point with
  | none => (false, { s with anchor := none })
  | some p =>
    match s.anchor with
    | none => (false, { s with anchor := some (p, now) })
    | some (a, anchor_ts) =>
      if distExceeds p a cfg.radius_px then
        (false, { s with anchor := some (p, now) })
      else if cfg.dwell_ms ≤ now - anchor_ts ∧
              cfg.debounce_ms ≤ now - s.last_click_ts then
        (true, { anchor := some (a, now), last_click_ts := now })
      else (false, s)

/-- Feeding a detector a timed sequence of optional points; one output flag
per `update` call. -/
def dwellRun (cfg : DwellCfg) (s : DwellState) :
    List (ℚ × Option (Int × Int)) → List Bool
  | [] => []
  | (t, p) :: rest =>
    let r := dwellUpdate cfg s t p
    r.1 :: dwellRun cfg r.2 rest

/-- `PointerEvent` (pointer.py lines 11-16); `type` and `source` are the
source's strings. -/
structure PointerEvent where
  type : String
  position : Int × Int
  source : String
  timestamp : ℚ

/-- `PointerRouter` state: the embedded detector plus `last_pos` and
`source`. -/
structure RouterState where
  detector : DwellState
  last_pos : Option (Int × Int)
  source : String

/-- Router state right after `PointerRouter.__init__`. -/
def initRouterState : RouterState :=
  { detector := initDwellState, last_pos := none, source := "laser" }

/-- `PointerRouter.feed_point` (pointer.py lines 67-77).  `now` is
`time.time()` in seconds; the detector receives `now * 1000` (the source reads
the clock twice in the same call; the two reads are identified).  Python's
`if point:` is `point is not None` here, a 2-tuple being always truthy.
Returns the synchronously emitted events, in order, with the new state. -/
def feed_point (cfg : DwellCfg) (st : RouterState) (now : ℚ)
    (point : Option (Int × Int)) (source : String) :
    List PointerEvent × RouterState :=
  match point with
  | some p =>
    let upd := dwellUpdate cfg st.detector (now * 1000) (some p)
    (PointerEvent.mk "move" p source now ::
       (if upd.1 then [PointerEvent.mk "click" p source now] else []),
     { detector := upd.2, last_pos := some p, source := source })
  | none =>
    let upd := dwellUpdate cfg st.detector (now * 1000) none
    ([], { st with detector := upd.2, source := source })

/-- `PointerRouter.feed_mouse_event`: verbatim pass-through tagged
`source = "mouse"`. -/
def feed_mouse_event (st : RouterState) (now : ℚ) (event_type : String)
    (pos : Int × Int) : List PointerEvent × RouterState :=
  ([PointerEvent.mk event_type pos "mouse" now], { st with last_pos := some pos })

/-- Feeding the router a timed sequence of optional laser points: the event
batch emitted by each `feed_point` call, in order. -/
def routerSteps (cfg : DwellCfg) (st : RouterState) :
    List (ℚ × Option (Int × Int)) → List (List PointerEvent)
  | [] => []
  | (t, p) :: rest =>
    let r := feed_point cfg st t p "laser"
    r.1 :: routerSteps cfg r.2 rest

/-- Router state after feeding a timed sequence of optional laser points. -/
def routerRun (cfg : DwellCfg) (st : RouterState)
    (feeds : List (ℚ × Option (Int × Int))) : RouterState :=
  feeds.foldl (fun s tp => (feed_point cfg s tp.1 tp.2 "laser").2) st

/-- A feed instruction holds a present point. -/
def feedPresent (feeds : List (ℚ × Option (Int × Int))) (j : Nat) : Prop :=
  ∃ q, feeds[j]? = some q ∧ q.2.isSome = true

/-! ### Persistence layer (config.py) -/

/-- File names of the application directory.  `bak s k` is the backup family
of the file named `s`: `k = 0` is the `.bak` suffix, `k ≥ 1` is `.bak{k}`,
exactly the candidates `_backup_corrupt_file` probes in order. -/
inductive FName where
  | base (s : String)
  | bak (s : String) (k : Nat)
deriving DecidableEq

/-- The on-disk store: the raw text content of each file, when present. -/
def FS : Type := FName → Option String

/-- Writing a file replaces its content wholesale. -/
def fsWrite (fs : FS) (n : FName) (content : String) : FS :=
  fun m => if m = n then some content else fs m

/-- `CALIBRATION_FILE`'s base name. -/
def calibName : String := "calibration.json"

/-- `CALIBRATION_FILE`. -/
def calibFile : FName := FName.base calibName

/-- A 3x3 homography matrix, row major: `H[i][j] = mIJ`. -/
structure Mat3 where
  m00 : ℚ
  m01 : ℚ
  m02 : ℚ
  m10 : ℚ
  m11 : ℚ
  m12 : ℚ
  m20 : ℚ
  m21 : ℚ
  m22 : ℚ
deriving DecidableEq

/-- The record `save_calibration` serializes and `load_calibration` parses:
`{homography | null, camera_points, screen_points}`. -/
structure CalFile where
  homography : Option Mat3
  camera_points : List (Int × Int)
  screen_points : List (Int × Int)

/-- `save_calibration` (config.py lines 121-129): serialize the record
(`ser` stands for `json.dump`) and write it in place over the calibration
file — a plain `open(.., "w")` followed by the dump, no temporary file and no
rename. -/
def save_calibration (ser : CalFile → String) (fs : FS) (matrix : Option Mat3)
    (points_camera points_screen : List (Int × Int)) : FS :=
  fsWrite fs calibFile (ser ⟨matrix, points_camera, points_screen⟩)

/-- All prefixes of a string, shortest first. -/
def strPrefixes (s : String) : List String :=
  (List.range (s.length + 1)).map (fun k => s.take k)

/-- The on-disk states a crash can leave behind during `save_calibration`:
`open(.., "w")` truncates the file at once and `json.dump` then streams into
it, so an interrupted save leaves the calibration file holding some prefix of
the serialized text (the last entry is the completed write). -/
def saveCrashStates (ser : CalFile → String) (fs : FS) (matrix : Option Mat3)
    (points_camera points_screen : List (Int × Int)) : List FS :=
  (strPrefixes (ser ⟨matrix, points_camera, points_screen⟩)).map
    (fun p => fsWrite fs calibFile p)

/-- A save is atomic when every crash state still shows either the previous
content or the complete new content of the calibration file. -/
def atomicSave (ser : CalFile → String) (fs : FS) (matrix : Option Mat3)
    (points_camera points_screen : List (Int × Int)) : Prop :=
  ∀ st ∈ saveCrashStates ser fs matrix points_camera points_screen,
    st calibFile = fs calibFile ∨
    st calibFile = some (ser ⟨matrix, points_camera, points_screen⟩)

/-- `_backup_corrupt_file` (config.py lines 94-106): if the file exists,
rename it to the first free name of its backup family (`.bak`, `.bak1`,
`.bak2`, ...).  `hfin` states that the store holds only finitely many backups
of the file, so the probing loop terminates; `Nat.find` is that loop. -/
def backupCorruptFile (fs : FS) (s : String)
    (hfin : ∃ k, fs (FName.bak s k) = none) : FS :=
  match fs (FName.base s) with
  | none => fs
  | some content =>
    let k := Nat.find hfin
    fun n =>
      if n = FName.bak s k then some content
      else if n = FName.base s then none
      else fs n

/-- `load_calibration` (config.py lines 109-118): missing file yields `None`;
a file the JSON parser rejects (`parse` stands for `json.load`) is backed up
aside and `None` is returned; otherwise the parsed record is returned and the
store untouched. -/
def load_calibration (parse : String → Option CalFile) (fs : FS)
    (hfin : ∃ k, fs (FName.bak calibName k) = none) : Option CalFile × FS :=
  match fs calibFile with
  | none => (none, fs)
  | some content =>
    match parse content with
    | some data => (some data, fs)
    | none => (none, backupCorruptFile fs calibName hfin)

/-! ### Calibration engine (calibration.py) -/

/-- `SCREEN_WIDTH` from constants.py. -/
def SCREEN_WIDTH : Int := 1024

/-- `SCREEN_HEIGHT` from constants.py. -/
def SCREEN_HEIGHT : Int := 768

/-- `build_calib_points`: the four corners plus the center of the screen
(Python `//` is floor division). -/
def build_calib_points (width height : Int) : List (Int × Int) :=
  [(0, 0), (width - 1, 0), (width - 1, height - 1), (0, height - 1),
   (Int.fdiv width 2, Int.fdiv height 2)]

/-- Python's `xs or dflt` on an optional list: `None` and `[]` are falsy. -/
def orDefault (given : Option (List (Int × Int))) (dflt : List (Int × Int)) :
    List (Int × Int) :=
  match given with
  | none => dflt
  | some l => if l = [] then dflt else l

/-- `CalibrationData` (calibration.py lines 28-32). -/
structure CalibrationData where
  homography : Option Mat3
  camera_points : List (Int × Int)
  screen_points : List (Int × Int)

/-- `load_homography` (calibration.py lines 67-85): resolve the default screen
points, read the persisted record, return an uncalibrated `CalibrationData`
when nothing (or no matrix) is stored, and otherwise carry the stored matrix
with the stored point lists (a count mismatch only logs a warning). -/
def load_homography (parse : String → Option CalFile) (fs : FS)
    (hfin : ∃ k, fs (FName.bak calibName k) = none)
    (screen_points : Option (List (Int × Int))) : CalibrationData × FS :=
  match load_calibration parse fs hfin, orDefault screen_points (build_calib_points SCREEN_WIDTH SCREEN_HEIGHT) with
  | (none, fs1), sp => ({ homography := none, camera_points := [], screen_points := sp }, fs1)
  | (some stored, fs1), sp =>
    match stored.homography with
    | none => ({ homography := none, camera_points := [], screen_points := sp }, fs1)
    | some H =>
      ({ homography := some H,
         camera_points := stored.camera_points,
         screen_points := orDefault (some stored.screen_points) sp }, fs1)

/-- The failures of the calibration engine: the two `ValueError` raises of
`compute_homography` map to `insufficientCorrespondences`, its `RuntimeError`
to `calibrationSolveFailure`; `degenerateTransform` is the error the spec
assigns to a numerically degenerate `apply`. -/
inductive CalibError where
  | insufficientCorrespondences
  | calibrationSolveFailure
  | degenerateTransform
deriving DecidableEq

/-- The two ways `compute_homography` invokes `cv2.findHomography`: the robust
estimator (`cv2.RANSAC` with reprojection threshold 8.0) and the direct
least-squares solve (`method = 0`). -/
inductive HMethod where
  | ransac
  | direct
deriving DecidableEq

/-- The `cv2.findHomography` oracle: for given correspondence lists and
method, the matrix (or `None`) and the inlier mask (or `None`). -/
abbrev FindH :=
  List (Int × Int) → List (Int × Int) → HMethod → Option Mat3 × Option (List Bool)

/-- `int(mask.sum()) if mask is not None else dflt`. -/
def maskInliers (mask : Option (List Bool)) (dflt : Nat) : Nat :=
  match mask with
  | none => dflt
  | some m => m.count true

/-- `compute_homography` (calibration.py lines 35-64): resolve the default
screen points, check equal lengths and at least 4 distinct points per side
(`np.unique` row counting is `List.dedup` here), fit with RANSAC, fall back to
the direct solve when the matrix is `None` or fewer than 4 inliers support it,
raise when the fallback also fails, and otherwise persist via
`save_calibration` and return the `CalibrationData`. -/
def compute_homography (fh : FindH) (ser : CalFile → String)
    (camera_points : List (Int × Int)) (screen_opt : Option (List (Int × Int)))
    (fs : FS) : Except CalibError CalibrationData × FS :=
  let screen_points := orDefault screen_opt (build_calib_points SCREEN_WIDTH SCREEN_HEIGHT)
  if camera_points.length ≠ screen_points.length then
    (Except.error CalibError.insufficientCorrespondences, fs)
  else if camera_points.dedup.length < 4 ∨ screen_points.dedup.length < 4 then
    (Except.error CalibError.insufficientCorrespondences, fs)
  else
    let r1 := fh camera_points screen_points HMethod.ransac
    let r2 :=
      if r1.1 = none ∨ maskInliers r1.2 0 < 4 then
        fh camera_points screen_points HMethod.direct
      else r1
    match r2.1 with
    | none => (Except.error CalibError.calibrationSolveFailure, fs)
    | some H =>
      (Except.ok { homography := some H, camera_points := camera_points,
                   screen_points := screen_points },
       save_calibration ser fs (some H) camera_points screen_points)

/-- `FLT_EPSILON = 2^(-23)`, the guard threshold inside
`cv2.perspectiveTransform`. -/
def fltEps : ℚ := 1 / 2 ^ 23

/-- The homogeneous w-component `x*H[2][0] + y*H[2][1] + H[2][2]`. -/
def wComp (H : Mat3) (p : Int × Int) : ℚ :=
  H.m20 * (p.1 : ℚ) + H.m21 * (p.2 : ℚ) + H.m22

/-- The homogeneous x-numerator `x*H[0][0] + y*H[0][1] + H[0][2]`. -/
def xComp (H : Mat3) (p : Int × Int) : ℚ :=
  H.m00 * (p.1 : ℚ) + H.m01 * (p.2 : ℚ) + H.m02

/-- The homogeneous y-numerator `x*H[1][0] + y*H[1][1] + H[1][2]`. -/
def yComp (H : Mat3) (p : Int × Int) : ℚ :=
  H.m10 * (p.1 : ℚ) + H.m11 * (p.2 : ℚ) + H.m12

/-- `apply_homography` (calibration.py lines 88-91): one point through
`cv2.perspectiveTransform`, then `int()` on both components.  OpenCV's kernel
guards `fabs(w) > FLT_EPSILON`, multiplying by `1/w` when it holds and writing
`(0, 0)` otherwise — it never raises. -/
def apply_homography (H : Mat3) (point : Int × Int) : Int × Int :=
  if fltEps < |wComp H point| then
    (pyTrunc (xComp H point * (1 / wComp H point)),
     pyTrunc (yComp H point * (1 / wComp H point)))
  else (0, 0)

/-- The `apply` contract as the specification words it (section 4.2): the same
projective transform, but failing with `DegenerateTransform` when `|w|` is
numerically indistinguishable from zero.  Stated only to be compared with the
embedded `apply_homography`. -/
def apply_homography_spec (H : Mat3) (point : Int × Int) :
    Except CalibError (Int × Int) :=
  if fltEps < |wComp H point| then
    Except.ok (pyTrunc (xComp H point * (1 / wComp H point)),
               pyTrunc (yComp H point * (1 / wComp H point)))
  else Except.error CalibError.degenerateTransform

/-! ### Concrete instances used by counterexamples and witnesses -/

/-- A 2x2 axis-aligned square: area 4, centroid `(1, 1)`. -/
def sqContour : Contour := [(0, 0), (2, 0), (2, 2), (0, 2)]

/-- Area filter accepting the square above. -/
def cexCfg : LaserCfg := { min_area := 1, max_area := 100 }

/-- Dwell tuning of the spec's timing scenario: 300 ms dwell, 10 px radius,
350 ms debounce. -/
def dwellCfg300 : DwellCfg := { dwell_ms := 300, radius_px := 10, debounce_ms := 350 }

/-- A homography whose bottom row is zero: every point maps to `w = 0`. -/
def degenMat : Mat3 :=
  { m00 := 1, m01 := 0, m02 := 0, m10 := 0, m11 := 1, m12 := 0,
    m20 := 0, m21 := 0, m22 := 0 }

/-- The identity homography. -/
def idMat : Mat3 :=
  { m00 := 1, m01 := 0, m02 := 0, m10 := 0, m11 := 1, m12 := 0,
    m20 := 0, m21 := 0, m22 := 1 }

/-- A store holding a previously persisted calibration file with content
`"OLD"`. -/
def fsC8 : FS := fun n => if n = calibFile then some "OLD" else none

/-- A serializer producing `"NEW"` for every record. -/
def serC8 : CalFile → String := fun _ => "NEW"

/-- A store holding a garbage calibration file and one existing backup. -/
def fsC9 : FS := fun n =>
  if n = calibFile then some "garbage"
  else if n = FName.bak calibName 0 then some "old-backup"
  else none

/-- A parser rejecting every content (the corrupt-file scenario). -/
def parseC9 : String → Option CalFile := fun _ => none

/-- An oracle whose RANSAC fit succeeds with a full inlier mask and whose
direct solve finds nothing. -/
def fhC6 : FindH := fun _ _ m =>
  match m with
  | HMethod.ransac => (some idMat, some [true, true, true, true])
  | HMethod.direct => (none, none)

/-- The unit square corners, 4 pairwise-distinct points. -/
def fourPts : List (Int × Int) := [(0, 0), (1, 0), (0, 1), (1, 1)]

/-- Three collinear camera points: fewer than 4 distinct on that side. -/
def threePts : List (Int × Int) := [(0, 0), (1, 1), (2, 2)]

/-- A serializer used only as an inert parameter. -/
def serNull : CalFile → String := fun _ => "file"

/-- An oracle that never finds a model. -/
def fhNull : FindH := fun _ _ _ => (none, none)

/-- An empty store. -/
def fsEmpty : FS := fun _ => none

/-! ## Lemmas about the tracker -/

lemma contourArea_nonneg (c : Contour) : 0 ≤ contourArea c := by
  unfold contourArea
  positivity

lemma contourArea_eq_zero_iff (c : Contour) : contourArea c = 0 ↔ shoelace2 c = 0 := by
  unfold contourArea
  rw [div_eq_zero_iff]
  simp

lemma centroid_eq_none_iff (c : Contour) : centroid c = none ↔ shoelace2 c = 0 := by
  by_cases h : shoelace2 c = 0 <;> simp [centroid, h]

lemma scanStep_of_not_inRange (cfg : LaserCfg) (st : Option (Int × Int) × ℚ)
    (c : Contour) (h : ¬ inAreaRange cfg c) : scanStep cfg st c = st := by
  have hc : contourArea c < cfg.min_area ∨ cfg.max_area < contourArea c := by
    rcases not_and_or.mp h with h' | h'
    · exact Or.inl (not_le.mp h')
    · exact Or.inr (not_le.mp h')
  unfold scanStep
  rw [if_pos hc]

lemma scanStep_of_le (cfg : LaserCfg) (st : Option (Int × Int) × ℚ)
    (c : Contour) (h : inAreaRange cfg c) (hle : ¬ st.2 < contourArea c) :
    scanStep cfg st c = st := by
  unfold scanStep
  rw [if_neg, if_neg hle]
  rw [not_or, not_lt, not_lt]
  exact ⟨h.1, h.2⟩

lemma scanStep_of_lt (cfg : LaserCfg) (st : Option (Int × Int) × ℚ)
    (c : Contour) (pt : Int × Int) (h : inAreaRange cfg c)
    (hlt : st.2 < contourArea c) (hpt : centroid c = some pt) :
    scanStep cfg st c = (some pt, contourArea c) := by
  unfold scanStep
  rw [if_neg, if_pos hlt, hpt]
  rw [not_or, not_lt, not_lt]
  exact ⟨h.1, h.2⟩

lemma scan_foldl_spec (cfg : LaserCfg) :
    ∀ (cs : List Contour) (b : Option (Int × Int)) (q : ℚ),
      0 ≤ q → (b.isSome = true ↔ 0 < q) →
      0 ≤ (cs.foldl (scanStep cfg) (b, q)).2 ∧
      ((cs.foldl (scanStep cfg) (b, q)).1.isSome = true ↔
        0 < (cs.foldl (scanStep cfg) (b, q)).2) ∧
      (cs.foldl (scanStep cfg) (b, q)).2
        = ((cs.filter (fun c => decide (inAreaRange cfg c))).map contourArea).foldl max q := by
  intro cs
  induction cs with
  | nil =>
    intro b q hq hb
    simpa using ⟨hq, hb⟩
  | cons c cs ih =>
    intro b q hq hb
    by_cases hin : inAreaRange cfg c
    · have hfil : (c :: cs).filter (fun c => decide (inAreaRange cfg c))
          = c :: cs.filter (fun c => decide (inAreaRange cfg c)) := by
        simp [List.filter_cons, hin]
      by_cases hlt : q < contourArea c
      · have hpos : (0 : ℚ) < contourArea c := lt_of_le_of_lt hq hlt
        have hne : shoelace2 c ≠ 0 := by
          intro h0
          rw [← contourArea_eq_zero_iff] at h0
          exact absurd h0 (ne_of_gt hpos)
        obtain ⟨pt, hpt⟩ : ∃ pt, centroid c = some pt := by
          rcases h : centroid c with _ | pt
          · exact absurd ((centroid_eq_none_iff c).mp h) hne
          · exact ⟨pt, rfl⟩
        have hstep : scanStep cfg (b, q) c = (some pt, contourArea c) :=
          scanStep_of_lt cfg (b, q) c pt hin hlt hpt
        rw [List.foldl_cons, hstep, hfil, List.map_cons, List.foldl_cons,
          max_eq_right (le_of_lt hlt)]
        exact ih (some pt) (contourArea c) (le_of_lt hpos) (by simp [hpos])
      · have hstep : scanStep cfg (b, q) c = (b, q) :=
          scanStep_of_le cfg (b, q) c hin hlt
        rw [List.foldl_cons, hstep, hfil, List.map_cons, List.foldl_cons,
          max_eq_left (not_lt.mp hlt)]
        exact ih b q hq hb
    · have hstep : scanStep cfg (b, q) c = (b, q) :=
        scanStep_of_not_inRange cfg (b, q) c hin
      have hfil : (c :: cs).filter (fun c => decide (inAreaRange cfg c))
          = cs.filter (fun c => decide (inAreaRange cfg c)) := by
        simp [List.filter_cons, hin]
      rw [List.foldl_cons, hstep, hfil]
      exact ih b q hq hb

lemma trackerScan_snd (cfg : LaserCfg) (cs : List Contour) :
    (trackerScan cfg cs).2 = selectedArea cfg cs :=
  (scan_foldl_spec cfg cs none 0 le_rfl (by simp)).2.2

lemma trackerScan_snd_nonneg (cfg : LaserCfg) (cs : List Contour) :
    0 ≤ (trackerScan cfg cs).2 :=
  (scan_foldl_spec cfg cs none 0 le_rfl (by simp)).1

lemma foldl_max_pos : ∀ (l : List ℚ) (q : ℚ),
    (0 < l.foldl max q ↔ 0 < q ∨ ∃ a ∈ l, 0 < a) := by
  intro l
  induction l with
  | nil => intro q; simp
  | cons a l ih =>
    intro q
    rw [List.foldl_cons, ih]
    constructor
    · rintro (h | ⟨x, hx, hx0⟩)
      · rcases lt_max_iff.mp h with h' | h'
        · exact Or.inl h'
        · exact Or.inr ⟨a, by simp, h'⟩
      · exact Or.inr ⟨x, by simp [hx], hx0⟩
    · rintro (h | ⟨x, hx, hx0⟩)
      · exact Or.inl (lt_max_iff.mpr (Or.inl h))
      · rcases List.mem_cons.mp hx with rfl | hx'
        · exact Or.inl (lt_max_iff.mpr (Or.inr hx0))
        · exact Or.inr ⟨x, hx', hx0⟩

lemma selectedArea_pos_iff (cfg : LaserCfg) (cs : List Contour) :
    (0 < selectedArea cfg cs ↔ ∃ c ∈ cs, inAreaRange cfg c ∧ contourArea c ≠ 0) := by
  unfold selectedArea
  rw [foldl_max_pos]
  constructor
  · rintro (h | ⟨a, ha, ha0⟩)
    · exact absurd h (by norm_num)
    · obtain ⟨c, hc, rfl⟩ := List.mem_map.mp ha
      obtain ⟨hcs, hcin⟩ := List.mem_filter.mp hc
      exact ⟨c, hcs, of_decide_eq_true hcin, ne_of_gt ha0⟩
  · rintro ⟨c, hcs, hcin, hc0⟩
    refine Or.inr ⟨contourArea c, List.mem_map.mpr
      ⟨c, List.mem_filter.mpr ⟨hcs, decide_eq_true hcin⟩, rfl⟩, ?_⟩
    exact lt_of_le_of_ne (contourArea_nonneg c) (Ne.symm hc0)

lemma trackerScan_fst_none_iff (cfg : LaserCfg) (cs : List Contour) :
    ((trackerScan cfg cs).1 = none ↔
      ¬ ∃ c ∈ cs, inAreaRange cfg c ∧ contourArea c ≠ 0) := by
  have h : ((trackerScan cfg cs).1.isSome = true ↔ 0 < (trackerScan cfg cs).2) :=
    (scan_foldl_spec cfg cs none 0 le_rfl (by simp)).2.1
  rw [trackerScan_snd, selectedArea_pos_iff] at h
  constructor
  · intro h0 hex
    have h1 := h.mpr hex
    rw [h0] at h1
    simp at h1
  · intro hnex
    rcases ho : (trackerScan cfg cs).1 with _ | pt
    · rfl
    · have h1 : (trackerScan cfg cs).1.isSome = true := by rw [ho]; rfl
      exact absurd (h.mp h1) hnex

lemma pyTrunc_intCast (n : Int) : pyTrunc (n : ℚ) = n := by
  unfold pyTrunc
  rw [Rat.intCast_num, Rat.intCast_den]
  exact Int.tdiv_one n

lemma smoothStep_fst_none_iff (alpha : ℚ) (lp : Option (ℚ × ℚ))
    (best : Option (Int × Int)) :
    ((smoothStep alpha lp best).1 = none ↔ best = none) := by
  rcases best with _ | b
  · simp [smoothStep]
  · rcases lp with _ | p0 <;> simp [smoothStep]

/-! ## C1 -/

/-- C1: for every processed frame, the detection's `point` is `None` exactly
when no contour of the mask has area within `[min_area, max_area]` (a
zero-area contour counting as a miss), the confidence equals
`min(1.0, selected_area / max(min_area, 1))`, and when no contour passes the
area filter the point is `None` and the confidence is `0`. -/
theorem C1_point_none_iff_and_confidence (cfg : LaserCfg) (alpha : ℚ)
    (last_point : Option (ℚ × ℚ)) (contours : List Contour) :
    ((trackerRead cfg alpha last_point contours).1.point = none ↔
        ¬ ∃ c ∈ contours, inAreaRange cfg c ∧ contourArea c ≠ 0) ∧
    (trackerRead cfg alpha last_point contours).1.confidence
        = min 1 (selectedArea cfg contours / max cfg.min_area 1) ∧
    ((¬ ∃ c ∈ contours, inAreaRange cfg c) →
        (trackerRead cfg alpha last_point contours).1.point = none ∧
        (trackerRead cfg alpha last_point contours).1.confidence = 0) := by
  have hpt : ((trackerRead cfg alpha last_point contours).1.point = none ↔
      ¬ ∃ c ∈ contours, inAreaRange cfg c ∧ contourArea c ≠ 0) := by
    rw [← trackerScan_fst_none_iff cfg contours,
      ← smoothStep_fst_none_iff alpha last_point (trackerScan cfg contours).1]
    unfold trackerRead
    simp [Option.map_eq_none']
  have hconf : (trackerRead cfg alpha last_point contours).1.confidence
      = min 1 (selectedArea cfg contours / max cfg.min_area 1) := by
    unfold trackerRead
    rw [trackerScan_snd]
  refine ⟨hpt, hconf, fun hno => ⟨?_, ?_⟩⟩
  · rw [hpt]
    rintro ⟨c, hc, hin, _⟩
    exact hno ⟨c, hc, hin⟩
  · rw [hconf]
    have : selectedArea cfg contours = 0 := by
      by_contra hne
      have hpos : 0 < selectedArea cfg contours :=
        lt_of_le_of_ne (by rw [← trackerScan_snd]; exact trackerScan_snd_nonneg cfg contours)
          (Ne.symm hne)
      obtain ⟨c, hc, hin, _⟩ := (selectedArea_pos_iff cfg contours).mp hpos
      exact hno ⟨c, hc, hin⟩
    rw [this, zero_div]
    norm_num

/-- C1 witness: on an empty contour list the detection reports no point and
zero confidence. -/
theorem C1_witness :
    (trackerRead cexCfg (1/2) none []).1.point = none ∧
    (trackerRead cexCfg (1/2) none []).1.confidence = 0 :=
  (C1_point_none_iff_and_confidence cexCfg (1/2) none []).2.2 (by simp)

/-! ## C2 -/

/-- C2 counterexample: with `alpha = 1/2`, prior state `(0, 0)` and raw
centroid `(1, 1)`, the blend is `(1/2, 1/2)` but the detection reports the
integer truncation `(0, 0)`, so the reported point does not equal
`alpha*p1 + (1-alpha)*p0`. -/
theorem C2_counterexample :
    (trackerScan cexCfg [sqContour]).1 = some (1, 1) ∧
    (trackerRead cexCfg (1/2) (some (0, 0)) [sqContour]).2 = some (1/2, 1/2) ∧
    (trackerRead cexCfg (1/2) (some (0, 0)) [sqContour]).1.point = some (0, 0) ∧
    ¬ ((trackerRead cexCfg (1/2) (some (0, 0)) [sqContour]).1.point.map toRatPair
        = some (emaBlend (1/2) (0, 0) (toRatPair (1, 1)))) := by
  refine ⟨by with_unfolding_all rfl, by with_unfolding_all rfl,
    by with_unfolding_all rfl, ?_⟩
  intro h
  have e1 : (trackerRead cexCfg (1/2) (some (0, 0)) [sqContour]).1.point.map toRatPair
      = some ((0 : ℚ), (0 : ℚ)) := by with_unfolding_all rfl
  have e2 : emaBlend (1/2) (0, 0) (toRatPair (1, 1)) = ((1/2 : ℚ), (1/2 : ℚ)) := by
    with_unfolding_all rfl
  rw [e1, e2] at h
  have := congrArg Prod.fst (Option.some.inj h)
  norm_num at this

/-- C2 (amended): with no prior state the detection reports the raw centroid
and seeds the state with it; with prior state `p0` and raw centroid `p1` the
new stored state is exactly `alpha*p1 + (1-alpha)*p0` and the reported point
is its componentwise integer truncation; a frame with no qualifying blob
reports no point and leaves the stored state unchanged. -/
theorem C2_ema_seed_blend_miss (cfg : LaserCfg) (alpha : ℚ)
    (last_point : Option (ℚ × ℚ)) (contours : List Contour) :
    (∀ b : Int × Int, (trackerScan cfg contours).1 = some b → last_point = none →
        (trackerRead cfg alpha last_point contours).1.point = some b ∧
        (trackerRead cfg alpha last_point contours).2 = some (toRatPair b)) ∧
    (∀ (b : Int × Int) (p0 : ℚ × ℚ),
        (trackerScan cfg contours).1 = some b → last_point = some p0 →
        (trackerRead cfg alpha last_point contours).2
            = some (emaBlend alpha p0 (toRatPair b)) ∧
        (trackerRead cfg alpha last_point contours).1.point
            = some (pyTrunc (emaBlend alpha p0 (toRatPair b)).1,
                    pyTrunc (emaBlend alpha p0 (toRatPair b)).2)) ∧
    ((trackerScan cfg contours).1 = none →
        (trackerRead cfg alpha last_point contours).1.point = none ∧
        (trackerRead cfg alpha last_point contours).2 = last_point) := by
  refine ⟨?_, ?_, ?_⟩
  · rintro b hb rfl
    unfold trackerRead
    rw [hb]
    simp [smoothStep, toRatPair, pyTrunc_intCast]
  · rintro b p0 hb rfl
    unfold trackerRead
    rw [hb]
    simp [smoothStep]
  · intro hb
    unfold trackerRead
    rw [hb]
    simp [smoothStep]

/-- C2 witness: the amended claim evaluated on the square contour with
`alpha = 1/2` and prior state `(0, 0)`. -/
theorem C2_witness :
    (trackerRead cexCfg (1/2) (some (0, 0)) [sqContour]).2
        = some (emaBlend (1/2) (0, 0) (toRatPair (1, 1))) ∧
    (trackerRead cexCfg (1/2) (some (0, 0)) [sqContour]).1.point
        = some (pyTrunc (emaBlend (1/2) (0, 0) (toRatPair (1, 1))).1,
                pyTrunc (emaBlend (1/2) (0, 0) (toRatPair (1, 1))).2) :=
  (C2_ema_seed_blend_miss cexCfg (1/2) (some (0, 0)) [sqContour]).2.1 (1, 1) (0, 0)
    (by with_unfolding_all rfl) rfl

/-! ## Lemmas about the dwell detector and the router -/

lemma dwellUpdate_absent (cfg : DwellCfg) (s : DwellState) (now : ℚ) :
    dwellUpdate cfg s now none = (false, { s with anchor := none }) := rfl

lemma dwellUpdate_seed (cfg : DwellCfg) (s : DwellState) (now : ℚ) (p : Int × Int)
    (h : s.anchor = none) :
    dwellUpdate cfg s now (some p) = (false, { s with anchor := some (p, now) }) := by
  simp only [dwellUpdate, h]

lemma dwellUpdate_move (cfg : DwellCfg) (s : DwellState) (now : ℚ)
    (p a : Int × Int) (anchor_ts : ℚ) (h : s.anchor = some (a, anchor_ts))
    (hd : distExceeds p a cfg.radius_px) :
    dwellUpdate cfg s now (some p) = (false, { s with anchor := some (p, now) }) := by
  simp only [dwellUpdate, h]
  rw [if_pos hd]

lemma feed_point_detector (cfg : DwellCfg) (st : RouterState) (now : ℚ)
    (point : Option (Int × Int)) (source : String) :
    (feed_point cfg st now point source).2.detector
      = (dwellUpdate cfg st.detector (now * 1000) point).2 := by
  rcases point with _ | p <;> rfl

lemma feed_point_click_mem (cfg : DwellCfg) (st : RouterState) (now : ℚ)
    (point : Option (Int × Int)) (source : String) (ev : PointerEvent)
    (hev : ev ∈ (feed_point cfg st now point source).1) (hty : ev.type = "click") :
    point.isSome = true ∧ st.detector.anchor.isSome = true := by
  rcases point with _ | p
  · simp [feed_point] at hev
  · refine ⟨rfl, ?_⟩
    rcases ha : st.detector.anchor with _ | ⟨a, ats⟩
    · exfalso
      have hupd := dwellUpdate_seed cfg st.detector (now * 1000) p ha
      simp only [feed_point, hupd] at hev
      simp at hev
      rw [hev] at hty
      exact (by decide : ("move" : String) ≠ "click") hty
    · rfl

lemma dwellRun_all_false (cfg : DwellCfg) :
    ∀ (trace : List (ℚ × (Int × Int))) (s : DwellState),
      (∀ (a : Int × Int) (anchor_ts t : ℚ) (p : Int × Int)
          (rest : List (ℚ × (Int × Int))),
          s.anchor = some (a, anchor_ts) → trace = (t, p) :: rest →
          distExceeds p a cfg.radius_px) →
      List.Chain' (fun p q => distExceeds q p cfg.radius_px) (trace.map Prod.snd) →
      dwellRun cfg s (trace.map (fun tp => (tp.1, some tp.2)))
        = List.replicate trace.length false := by
  intro trace
  induction trace with
  | nil => intro s _ _; rfl
  | cons tp rest ih =>
    obtain ⟨t, p⟩ := tp
    intro s hfirst hchain
    have hstep : dwellUpdate cfg s t (some p)
        = (false, { s with anchor := some (p, t) }) := by
      rcases ha : s.anchor with _ | ⟨a, ats⟩
      · exact dwellUpdate_seed cfg s t p ha
      · exact dwellUpdate_move cfg s t p a ats ha (hfirst a ats t p rest ha rfl)
    have hrun : dwellRun cfg s (((t, p) :: rest).map (fun tp => (tp.1, some tp.2)))
        = false :: dwellRun cfg { s with anchor := some (p, t) }
            (rest.map (fun tp => (tp.1, some tp.2))) := by
      simp only [List.map_cons, dwellRun, hstep]
    rw [hrun, List.length_cons, List.replicate_succ]
    congr 1
    rcases rest with _ | ⟨⟨t2, p2⟩, rest'⟩
    · rfl
    · have hch := hchain
      rw [List.map_cons, List.map_cons, List.chain'_cons] at hch
      refine ih { s with anchor := some (p, t) } ?_ ?_
      · rintro a' ats' t' p' rest'' h1 h2
        have h1' : (p, t) = (a', ats') := Option.some.inj h1
        obtain ⟨h2a, _⟩ := List.cons.inj h2
        have hpa : a' = p := (congrArg Prod.fst h1').symm
        have hpp : p' = p2 := (congrArg Prod.snd h2a).symm
        rw [hpa, hpp]
        exact hch.1
      · rw [List.map_cons]
        exact hch.2

lemma routerSteps_click_aux (cfg : DwellCfg) :
    ∀ (feeds : List (ℚ × Option (Int × Int))) (st : RouterState) (i : Nat),
      (∃ ev ∈ ((routerSteps cfg st feeds)[i]?).getD [], ev.type = "click") →
      ((i = 0 → st.detector.anchor.isSome = true ∧ feedPresent feeds 0) ∧
       (1 ≤ i → feedPresent feeds (i - 1) ∧ feedPresent feeds i)) := by
  intro feeds
  induction feeds with
  | nil =>
    intro st i h
    obtain ⟨ev, hev, _⟩ := h
    simp [routerSteps] at hev
  | cons f rest ih =>
    obtain ⟨t, p⟩ := f
    intro st i h
    rcases i with _ | j
    · obtain ⟨ev, hev, hty⟩ := h
      have hev0 : ev ∈ (feed_point cfg st t p "laser").1 := by
        simpa [routerSteps] using hev
      obtain ⟨hp, hanch⟩ := feed_point_click_mem cfg st t p "laser" ev hev0 hty
      refine ⟨fun _ => ⟨hanch, ⟨(t, p), by simp, hp⟩⟩, fun h1 => absurd h1 (by omega)⟩
    · have h' : ∃ ev ∈ ((routerSteps cfg (feed_point cfg st t p "laser").2 rest)[j]?).getD [],
          ev.type = "click" := by
        simpa [routerSteps] using h
      have IH := ih (feed_point cfg st t p "laser").2 j h'
      refine ⟨fun h0 => absurd h0 (by omega), fun _ => ?_⟩
      rcases j with _ | j'
      · obtain ⟨hanch, hrest0⟩ := IH.1 rfl
        have hp : p.isSome = true := by
          rw [feed_point_detector cfg st t p "laser"] at hanch
          rcases p with _ | q
          · rw [dwellUpdate_absent] at hanch
            simp at hanch
          · rfl
        refine ⟨⟨(t, p), by simp, hp⟩, ?_⟩
        obtain ⟨q, hq1, hq2⟩ := hrest0
        exact ⟨q, by simpa using hq1, hq2⟩
      · obtain ⟨ha, hb⟩ := IH.2 (by omega)
        obtain ⟨qa, hqa1, hqa2⟩ := ha
        obtain ⟨qb, hqb1, hqb2⟩ := hb
        refine ⟨⟨qa, ?_, hqa2⟩, ⟨qb, ?_, hqb2⟩⟩
        · simpa using hqa1
        · simpa using hqb1

/-! ## C3 -/

/-- C3: with an anchor set and the fed point within radius of it, `update`
emits a click exactly when `now - anchor_ts ≥ dwell_ms` and
`now - last_click_ts ≥ debounce_ms` both hold, and then resets both
`last_click_ts` and `anchor_ts` to `now`; hence a stationary point under
`dwell_ms = 300`, `debounce_ms = 350` clicks exactly once at 300 ms elapsed
and not again before the debounce has elapsed. -/
theorem C3_dwell_click_timing :
    (∀ (cfg : DwellCfg) (s : DwellState) (now : ℚ) (p a : Int × Int)
        (anchor_ts : ℚ),
        s.anchor = some (a, anchor_ts) →
        ¬ distExceeds p a cfg.radius_px →
        (((dwellUpdate cfg s now (some p)).1 = true ↔
            (cfg.dwell_ms ≤ now - anchor_ts ∧
             cfg.debounce_ms ≤ now - s.last_click_ts)) ∧
         ((dwellUpdate cfg s now (some p)).1 = true →
            (dwellUpdate cfg s now (some p)).2
              = { anchor := some (a, now), last_click_ts := now }))) ∧
    dwellRun dwellCfg300 initDwellState
        [(1000000, some (100, 100)), (1000100, some (100, 100)),
         (1000200, some (100, 100)), (1000299, some (100, 100)),
         (1000300, some (100, 100)), (1000400, some (100, 100)),
         (1000649, some (100, 100)), (1000650, some (100, 100))]
      = [false, false, false, false, true, false, false, true] := by
  constructor
  · intro cfg s now p a anchor_ts ha hdist
    have key : dwellUpdate cfg s now (some p)
        = if cfg.dwell_ms ≤ now - anchor_ts ∧ cfg.debounce_ms ≤ now - s.last_click_ts
          then (true, { anchor := some (a, now), last_click_ts := now })
          else (false, s) := by
      simp only [dwellUpdate, ha]
      rw [if_neg hdist]
    by_cases hc : cfg.dwell_ms ≤ now - anchor_ts ∧
        cfg.debounce_ms ≤ now - s.last_click_ts
    · rw [key, if_pos hc]
      exact ⟨⟨fun _ => hc, fun _ => rfl⟩, fun _ => rfl⟩
    · rw [key, if_neg hc]
      exact ⟨⟨fun h => absurd h (by simp), fun h => absurd h hc⟩,
        fun h => absurd h (by simp)⟩
  · with_unfolding_all rfl

/-- C3 witness: a stationary point 400 ms after the anchor was set, with the
debounce long since elapsed, fires a click and resets both timestamps. -/
theorem C3_witness :
    ¬ distExceeds (5, 6) (5, 5) 10 ∧
    (dwellUpdate dwellCfg300 ⟨some ((5, 5), 1000000), 0⟩ 1000400 (some (5, 6))).1 = true ∧
    (dwellUpdate dwellCfg300 ⟨some ((5, 5), 1000000), 0⟩ 1000400 (some (5, 6))).2
      = { anchor := some ((5, 5), 1000400), last_click_ts := 1000400 } := by
  have hd : ¬ distExceeds (5, 6) (5, 5) 10 := by decide
  have h := C3_dwell_click_timing.1 dwellCfg300 ⟨some ((5, 5), 1000000), 0⟩ 1000400
    (5, 6) (5, 5) 1000000 rfl hd
  have hc : (dwellUpdate dwellCfg300 ⟨some ((5, 5), 1000000), 0⟩ 1000400
      (some (5, 6))).1 = true :=
    h.1.mpr ⟨by norm_num [dwellCfg300], by norm_num [dwellCfg300]⟩
  exact ⟨hd, hc, h.2 hc⟩

/-! ## C4 -/

/-- C4: a fed point farther than `radius_px` from the anchor resets the anchor
to that point with timestamp `now` and emits no click; a run whose consecutive
points each exceed the radius never clicks, at any times; feeding an absent
point emits no event and clears the anchor. -/
theorem C4_movement_cancellation_and_absence :
    (∀ (cfg : DwellCfg) (s : DwellState) (now : ℚ) (p a : Int × Int)
        (anchor_ts : ℚ),
        s.anchor = some (a, anchor_ts) → distExceeds p a cfg.radius_px →
        dwellUpdate cfg s now (some p)
          = (false, { s with anchor := some (p, now) })) ∧
    (∀ (cfg : DwellCfg) (s : DwellState) (trace : List (ℚ × (Int × Int))),
        s.anchor = none →
        List.Chain' (fun p q => distExceeds q p cfg.radius_px) (trace.map Prod.snd) →
        dwellRun cfg s (trace.map (fun tp => (tp.1, some tp.2)))
          = List.replicate trace.length false) ∧
    (∀ (cfg : DwellCfg) (st : RouterState) (now : ℚ) (source : String),
        (feed_point cfg st now none source).1 = [] ∧
        (feed_point cfg st now none source).2.detector.anchor = none) := by
  refine ⟨?_, ?_, ?_⟩
  · intro cfg s now p a anchor_ts ha hd
    exact dwellUpdate_move cfg s now p a anchor_ts ha hd
  · intro cfg s trace hanchor hchain
    refine dwellRun_all_false cfg trace s ?_ hchain
    intro a ats t p rest h1 _
    rw [hanchor] at h1
    exact Option.noConfusion h1
  · intro cfg st now source
    exact ⟨rfl, rfl⟩

/-- C4 witness: a 50 px jump resets the anchor without a click, and a
three-point run with consecutive jumps beyond the radius emits no click at
widely spaced times. -/
theorem C4_witness :
    distExceeds (30, 40) (0, 0) 10 ∧
    dwellUpdate dwellCfg300 ⟨some ((0, 0), 1000000), 0⟩ 1000500 (some (30, 40))
      = (false, ⟨some ((30, 40), 1000500), 0⟩) ∧
    dwellRun dwellCfg300 initDwellState
        [(1000000, some (0, 0)), (2000000, some (30, 40)), (3000000, some (60, 80))]
      = List.replicate 3 false := by
  have hd : distExceeds (30, 40) (0, 0) 10 := by decide
  refine ⟨hd, C4_movement_cancellation_and_absence.1 dwellCfg300
    ⟨some ((0, 0), 1000000), 0⟩ 1000500 (30, 40) (0, 0) 1000000 rfl hd, ?_⟩
  have hchain : List.Chain' (fun p q => distExceeds q p dwellCfg300.radius_px)
      (([(1000000, (0, 0)), (2000000, (30, 40)), (3000000, (60, 80))] :
        List (ℚ × (Int × Int))).map Prod.snd) := by
    simp only [List.map_cons, List.map_nil]
    exact List.chain'_cons.mpr ⟨by decide, List.chain'_cons.mpr ⟨by decide, List.Chain.nil⟩⟩
  have h := C4_movement_cancellation_and_absence.2.1 dwellCfg300 initDwellState
    [(1000000, (0, 0)), (2000000, (30, 40)), (3000000, (60, 80))] rfl hchain
  simpa using h

/-! ## C10 -/

/-- C10: with no anchor set (after construction or an absent feed), a present
`feed_point` emits exactly one `move` event and no click; and in any run from
a fresh router, a click at step `i` forces `i ≥ 1` with the feeds at `i-1`
and `i` both present. -/
theorem C10_first_present_feed_and_click_needs_two :
    (∀ (cfg : DwellCfg) (st : RouterState) (now : ℚ) (p : Int × Int)
        (source : String),
        st.detector.anchor = none →
        (feed_point cfg st now (some p) source).1
          = [PointerEvent.mk "move" p source now]) ∧
    (∀ (cfg : DwellCfg) (feeds : List (ℚ × Option (Int × Int))) (i : Nat),
        (∃ ev ∈ ((routerSteps cfg initRouterState feeds)[i]?).getD [],
          ev.type = "click") →
        1 ≤ i ∧ feedPresent feeds (i - 1) ∧ feedPresent feeds i) := by
  constructor
  · intro cfg st now p source ha
    have h := dwellUpdate_seed cfg st.detector (now * 1000) p ha
    simp only [feed_point, h]
    rfl
  · intro cfg feeds i h
    have H := routerSteps_click_aux cfg feeds initRouterState i h
    rcases i with _ | j
    · obtain ⟨hanch, _⟩ := H.1 rfl
      simp [initRouterState, initDwellState] at hanch
    · obtain ⟨ha, hb⟩ := H.2 (by omega)
      exact ⟨by omega, ha, hb⟩

/-- C10 witness: from a fresh router the first present feed emits exactly the
move event, and the click fired at step 1 of a two-feed stationary run has
both feeds present. -/
theorem C10_witness :
    (feed_point dwellCfg300 initRouterState 1 (some (5, 5)) "laser").1
        = [PointerEvent.mk "move" (5, 5) "laser" 1] ∧
    (1 ≤ 1 ∧ feedPresent [(1, some (5, 5)), (2, some (5, 5))] 0 ∧
      feedPresent [(1, some (5, 5)), (2, some (5, 5))] 1) := by
  constructor
  · exact C10_first_present_feed_and_click_needs_two.1 dwellCfg300 initRouterState 1
      (5, 5) "laser" rfl
  · refine C10_first_present_feed_and_click_needs_two.2 dwellCfg300
      [(1, some (5, 5)), (2, some (5, 5))] 1 ?_
    refine ⟨PointerEvent.mk "click" (5, 5) "laser" 2, ?_, rfl⟩
    have e : ((routerSteps dwellCfg300 initRouterState
        [(1, some (5, 5)), (2, some (5, 5))])[1]?).getD []
        = [PointerEvent.mk "move" (5, 5) "laser" 2,
           PointerEvent.mk "click" (5, 5) "laser" 2] := by
      with_unfolding_all rfl
    rw [e]
    exact List.mem_cons_of_mem _ (List.mem_singleton_self _)

/-! ## C5 -/

/-- C5: with point lists of unequal length, or fewer than 4 pairwise-distinct
points on either side, `compute_homography` fails with
`InsufficientCorrespondences` and leaves the persisted store untouched. -/
theorem C5_insufficient_correspondences (fh : FindH) (ser : CalFile → String)
    (camera screen : List (Int × Int)) (fs : FS) (hne : screen ≠ [])
    (hbad : camera.length ≠ screen.length ∨ camera.dedup.length < 4 ∨
      screen.dedup.length < 4) :
    compute_homography fh ser camera (some screen) fs
      = (Except.error CalibError.insufficientCorrespondences, fs) := by
  have hor : orDefault (some screen) (build_calib_points SCREEN_WIDTH SCREEN_HEIGHT)
      = screen := by
    simp [orDefault, hne]
  simp only [compute_homography, hor]
  by_cases hlen : camera.length ≠ screen.length
  · rw [if_pos hlen]
  · rw [if_neg hlen]
    have hded : camera.dedup.length < 4 ∨ screen.dedup.length < 4 := by
      rcases hbad with h | h
      · exact absurd h hlen
      · exact h
    rw [if_pos hded]

/-- C5 witness: three camera points against four screen points fail with
`InsufficientCorrespondences` on an untouched empty store. -/
theorem C5_witness :
    compute_homography fhNull serNull threePts (some fourPts) fsEmpty
      = (Except.error CalibError.insufficientCorrespondences, fsEmpty) :=
  C5_insufficient_correspondences fhNull serNull threePts fourPts fsEmpty
    (by decide) (Or.inl (by decide))

/-! ## C6 -/

/-- C6: on validated inputs, a RANSAC fit with at least 4 inliers is adopted
and persisted; a RANSAC fit with no matrix or fewer than 4 inliers falls back
to the direct solve, whose matrix is adopted and persisted; when the fallback
also returns no matrix, the call fails with `CalibrationSolveFailure` and the
store is untouched.  A successful result carries the matrix and both point
lists. -/
theorem C6_ransac_fallback_persist (fh : FindH) (ser : CalFile → String)
    (camera screen : List (Int × Int)) (fs : FS) (hne : screen ≠ [])
    (hlen : camera.length = screen.length)
    (hc : 4 ≤ camera.dedup.length) (hs : 4 ≤ screen.dedup.length) :
    ((∀ H1 mask1, fh camera screen HMethod.ransac = (some H1, mask1) →
        4 ≤ maskInliers mask1 0 →
        compute_homography fh ser camera (some screen) fs
          = (Except.ok ⟨some H1, camera, screen⟩,
             save_calibration ser fs (some H1) camera screen)) ∧
     (∀ H2 mask2,
        ((fh camera screen HMethod.ransac).1 = none ∨
          maskInliers (fh camera screen HMethod.ransac).2 0 < 4) →
        fh camera screen HMethod.direct = (some H2, mask2) →
        compute_homography fh ser camera (some screen) fs
          = (Except.ok ⟨some H2, camera, screen⟩,
             save_calibration ser fs (some H2) camera screen)) ∧
     (((fh camera screen HMethod.ransac).1 = none ∨
         maskInliers (fh camera screen HMethod.ransac).2 0 < 4) →
       (fh camera screen HMethod.direct).1 = none →
       compute_homography fh ser camera (some screen) fs
         = (Except.error CalibError.calibrationSolveFailure, fs))) := by
  have hor : orDefault (some screen) (build_calib_points SCREEN_WIDTH SCREEN_HEIGHT)
      = screen := by
    simp [orDefault, hne]
  have hnlen : ¬ camera.length ≠ screen.length := by simpa using hlen
  have hnded : ¬ (camera.dedup.length < 4 ∨ screen.dedup.length < 4) := by
    push_neg
    exact ⟨hc, hs⟩
  refine ⟨?_, ?_, ?_⟩
  · intro H1 mask1 hr hin
    have hcond : ¬ ((fh camera screen HMethod.ransac).1 = none ∨
        maskInliers (fh camera screen HMethod.ransac).2 0 < 4) := by
      rw [hr]
      push_neg
      exact ⟨by simp, by simpa using hin⟩
    simp only [compute_homography, hor]
    rw [if_neg hnlen, if_neg hnded, if_neg hcond, hr]
  · intro H2 mask2 hcond hd
    simp only [compute_homography, hor]
    rw [if_neg hnlen, if_neg hnded, if_pos hcond, hd]
  · intro hcond hd
    simp only [compute_homography, hor]
    rw [if_neg hnlen, if_neg hnded, if_pos hcond, hd]

/-- C6 witness: a RANSAC success with a full 4-inlier mask is adopted and
persisted on the unit-square correspondences. -/
theorem C6_witness :
    compute_homography fhC6 serNull fourPts (some fourPts) fsEmpty
      = (Except.ok ⟨some idMat, fourPts, fourPts⟩,
         save_calibration serNull fsEmpty (some idMat) fourPts fourPts) :=
  (C6_ransac_fallback_persist fhC6 serNull fourPts fourPts fsEmpty (by decide)
    rfl (by decide) (by decide)).1 idMat (some [true, true, true, true]) rfl
    (by decide)

/-! ## C7 -/

/-- C7 counterexample: at the zero-bottom-row homography and point `(5, 7)`
the w-component is exactly `0`, yet the code returns the value `(0, 0)` —
there is no failure — while the specified `apply` contract demands
`DegenerateTransform` there. -/
theorem C7_counterexample :
    wComp degenMat (5, 7) = 0 ∧
    apply_homography degenMat (5, 7) = (0, 0) ∧
    apply_homography_spec degenMat (5, 7)
      = Except.error CalibError.degenerateTransform := by
  refine ⟨?_, ?_, ?_⟩
  · with_unfolding_all rfl
  · with_unfolding_all rfl
  · with_unfolding_all rfl

/-- C7 (amended): `apply_homography` maps through homogeneous coordinates and
divides only when `|w| > FLT_EPSILON`; when `|w| ≤ FLT_EPSILON` it silently
returns `(0, 0)` instead of raising, so no unguarded division ever occurs. -/
theorem C7_apply_guard (H : Mat3) (point : Int × Int) :
    (fltEps < |wComp H point| →
        apply_homography H point
          = (pyTrunc (xComp H point * (1 / wComp H point)),
             pyTrunc (yComp H point * (1 / wComp H point)))) ∧
    (|wComp H point| ≤ fltEps → apply_homography H point = (0, 0)) := by
  constructor
  · intro h
    unfold apply_homography
    rw [if_pos h]
  · intro h
    unfold apply_homography
    rw [if_neg (not_lt.mpr h)]

/-- C7 witness: the identity homography at `(5, 7)` has `|w| = 1` above the
threshold, and the projected point is returned. -/
theorem C7_witness :
    fltEps < |wComp idMat (5, 7)| ∧
    apply_homography idMat (5, 7)
      = (pyTrunc (xComp idMat (5, 7) * (1 / wComp idMat (5, 7))),
         pyTrunc (yComp idMat (5, 7) * (1 / wComp idMat (5, 7)))) := by
  have hw : fltEps < |wComp idMat (5, 7)| := by
    norm_num [fltEps, wComp, idMat]
  exact ⟨hw, (C7_apply_guard idMat (5, 7)).1 hw⟩

/-! ## C8 -/

/-- C8: `save_calibration` is not atomic.  The completed write does store the
new content, but the crash state right after `open(.., "w")` truncates the
file shows empty content, which is neither the previous `"OLD"` content nor
the new `"NEW"` one — a crash mid-write loses the last good calibration
file. -/
theorem C8_save_not_atomic :
    (save_calibration serC8 fsC8 none [] []) calibFile = some "NEW" ∧
    fsC8 calibFile = some "OLD" ∧
    fsWrite fsC8 calibFile "" ∈ saveCrashStates serC8 fsC8 none [] [] ∧
    (fsWrite fsC8 calibFile "") calibFile = some "" ∧
    ¬ atomicSave serC8 fsC8 none [] [] := by
  have hmem : fsWrite fsC8 calibFile "" ∈ saveCrashStates serC8 fsC8 none [] [] := by
    have e : saveCrashStates serC8 fsC8 none [] []
        = [fsWrite fsC8 calibFile "", fsWrite fsC8 calibFile "N",
           fsWrite fsC8 calibFile "NE", fsWrite fsC8 calibFile "NEW"] := by
      with_unfolding_all rfl
    rw [e]
    exact List.mem_cons_self _ _
  refine ⟨rfl, rfl, hmem, rfl, ?_⟩
  intro hat
  rcases hat (fsWrite fsC8 calibFile "") hmem with h | h
  · exact absurd h (by decide)
  · exact absurd h (by decide)

/-! ## C9 -/

/-- C9: a missing calibration file loads as `None` (an uncalibrated record)
with the store untouched; a corrupt file loads as `None`, the malformed
content is renamed to the first free backup name of the family `.bak`,
`.bak1`, `.bak2`, ... (the target did not exist, every earlier candidate was
taken, the content is preserved verbatim, every other file is untouched), and
`load_homography` reports no matrix. -/
theorem C9_corrupt_and_missing_load (parse : String → Option CalFile) (fs : FS)
    (hfin : ∃ k, fs (FName.bak calibName k) = none) :
    ((fs calibFile = none →
        load_calibration parse fs hfin = (none, fs) ∧
        (load_homography parse fs hfin none).1.homography = none) ∧
     (∀ content, fs calibFile = some content → parse content = none →
        (load_calibration parse fs hfin).1 = none ∧
        (load_homography parse fs hfin none).1.homography = none ∧
        fs (FName.bak calibName (Nat.find hfin)) = none ∧
        (∀ j < Nat.find hfin, fs (FName.bak calibName j) ≠ none) ∧
        (load_calibration parse fs hfin).2 (FName.bak calibName (Nat.find hfin))
          = some content ∧
        (load_calibration parse fs hfin).2 calibFile = none ∧
        (∀ n, n ≠ calibFile → n ≠ FName.bak calibName (Nat.find hfin) →
          (load_calibration parse fs hfin).2 n = fs n))) := by
  constructor
  · intro h
    have h1 : load_calibration parse fs hfin = (none, fs) := by
      simp only [load_calibration, h]
    refine ⟨h1, ?_⟩
    simp only [load_homography, h1]
  · intro content hc hp
    have hc' : fs (FName.base calibName) = some content := hc
    have h1 : load_calibration parse fs hfin
        = (none, backupCorruptFile fs calibName hfin) := by
      simp only [load_calibration, hc, hp]
    have h2 : backupCorruptFile fs calibName hfin
        = fun n =>
            if n = FName.bak calibName (Nat.find hfin) then some content
            else if n = FName.base calibName then none
            else fs n := by
      simp only [backupCorruptFile, hc']
    refine ⟨by rw [h1], ?_, Nat.find_spec hfin, fun j hj => Nat.find_min hfin hj,
      ?_, ?_, ?_⟩
    · simp only [load_homography, h1]
    · rw [h1]
      show backupCorruptFile fs calibName hfin (FName.bak calibName (Nat.find hfin))
        = some content
      rw [h2]
      simp
    · rw [h1]
      show backupCorruptFile fs calibName hfin calibFile = none
      rw [h2]
      exact (if_neg (fun h => FName.noConfusion h)).trans (if_pos rfl)
    · intro n hn1 hn2
      rw [h1]
      show backupCorruptFile fs calibName hfin n = fs n
      rw [h2]
      exact (if_neg hn2).trans (if_neg hn1)

/-- The witness store holds only finitely many backups: index 1 is free. -/
lemma fsC9_hfin : ∃ k, fsC9 (FName.bak calibName k) = none :=
  ⟨1, by decide⟩

/-- C9 witness: on the garbage calibration file with `.bak` already taken,
load returns `None`, the content moves to the first free name `.bak1`, the
existing `.bak` survives, and the loaded record is uncalibrated. -/
theorem C9_witness :
    (load_calibration parseC9 fsC9 fsC9_hfin).1 = none ∧
    Nat.find fsC9_hfin = 1 ∧
    (load_calibration parseC9 fsC9 fsC9_hfin).2 (FName.bak calibName 1)
      = some "garbage" ∧
    (load_calibration parseC9 fsC9 fsC9_hfin).2 calibFile = none ∧
    (load_calibration parseC9 fsC9 fsC9_hfin).2 (FName.bak calibName 0)
      = some "old-backup" ∧
    (load_homography parseC9 fsC9 fsC9_hfin none).1.homography = none := by
  have hk : Nat.find fsC9_hfin = 1 := by
    rw [Nat.find_eq_iff]
    refine ⟨by decide, ?_⟩
    intro n hn
    interval_cases n
    decide
  have H := (C9_corrupt_and_missing_load parseC9 fsC9 fsC9_hfin).2 "garbage"
    (by decide) rfl
  refine ⟨H.1, hk, ?_, H.2.2.2.2.2.1, ?_, H.2.1⟩
  · have h5 := H.2.2.2.2.1
    rw [hk] at h5
    exact h5
  · have hne2 : FName.bak calibName 0 ≠ FName.bak calibName (Nat.find fsC9_hfin) := by
      rw [hk]
      decide
    have h7 := H.2.2.2.2.2.2 (FName.bak calibName 0) (by decide) hne2
    rw [h7]
    decide

end LaserArcade
